import Mathlib

/-!
Shallow embedding of the ticker-scoped vector index and retrieval subsystem
of the InvestiSphere repository (`vector_db/faiss_manager.py`, `rag/retriever.py`,
`config.py`).

Modelling conventions:
* Embedding vectors are lists of rationals (exact stand-in for float32 values;
  every claim here is structural, none depends on rounding).
* The FAISS `IndexFlatL2` object is modelled by `FlatIndex`: its constructor
  dimensionality and the stored vectors in insertion order.  `FlatIndex.add`
  models `index.add(np.array(xs, dtype=np.float32))`: the numpy conversion and
  the faiss wrapper reject empty or wrongly-dimensioned input by raising, before
  any vector is stored.  `FlatIndex.searchIds` models `index.search`: it returns
  exactly `k` (id, distance) pairs, the `min(k, ntotal)` nearest first (ascending
  distance, ties by ascending id), padded with id `-1` and distance `FLT_MAX`.
* The local filesystem and the Azure blob container are association lists from
  path/blob-name strings to file contents, with first-match lookup and
  shadowing update (`fsSet` prepends, matching "an overwriting write").
* A Python exception is an `Err` value; operations return their final state
  together with `Option Err` / `Except Err α`, since a raised exception does not
  roll back the mutations already performed.
-/

abbrev Document := String

abbrev Vec := List Rat

inductive Err where
  | dimensionMismatch
  | keyError (i : Int)
  | remoteTransport
  | deserialize
  deriving DecidableEq, Repr

/-- Contents of one on-disk file or remote blob: a serialized FAISS index, a
pickled document mapping, or a zero-byte file (as left by `open(path, "wb")`
followed by a failed write). -/
inductive FileData where
  | indexData (d : Nat) (vecs : List Vec)
  | mappingData (m : List (Nat × Document))
  | empty
  deriving DecidableEq, Repr

abbrev FS := List (String × FileData)

def fsGet (fs : FS) (p : String) : Option FileData :=
  (fs.find? (fun e => e.1 == p)).map (fun e => e.2)

def fsSet (fs : FS) (p : String) (d : FileData) : FS :=
  (p, d) :: fs

/-- `faiss.IndexFlatL2`: dimensionality fixed at construction, vectors stored in
insertion order. -/
structure FlatIndex where
  d : Nat
  vecs : List Vec
  deriving DecidableEq, Repr

/-- Squared L2 distance, as computed by `IndexFlatL2`. -/
def sqDist (q v : Vec) : Rat :=
  (List.zipWith (fun a b => (a - b) ^ 2) q v).sum

/-- `index.add(np.array(xs, dtype=np.float32))`: numpy raises on a ragged or
empty batch (`n, d = x.shape` fails on a 1-d array), and the faiss wrapper
asserts every row length equals the index dimensionality; in every failing case
the exception is raised before any vector is appended. -/
def FlatIndex.add (idx : FlatIndex) (xs : List Vec) : Except Err FlatIndex :=
  if xs.isEmpty then .error .dimensionMismatch
  else if xs.all (fun v => v.length = idx.d) then
    .ok { idx with vecs := idx.vecs ++ xs }
  else .error .dimensionMismatch

/-- FLT_MAX, the distance faiss reports for padded (id `-1`) result slots. -/
def floatMax : Rat := 2 ^ 128 - 2 ^ 104

/-- Ordering used to determinize the faiss result ranking: ascending distance,
ties broken by ascending insertion id. -/
def distLe (x y : Int × Rat) : Prop :=
  x.2 < y.2 ∨ (x.2 = y.2 ∧ x.1 ≤ y.1)

instance : DecidableRel distLe := fun x y => by
  unfold distLe; exact inferInstance

/-- `index.search(np.array([q]), k)` for `IndexFlatL2`: the `min(k, ntotal)`
nearest stored ids with their squared L2 distances, ascending, padded to exactly
`k` entries with id `-1` and distance FLT_MAX when `k > ntotal`. -/
def FlatIndex.searchIds (idx : FlatIndex) (q : Vec) (k : Nat) : List (Int × Rat) :=
  let scored := idx.vecs.enum.map (fun p => ((p.1 : Int), sqDist q p.2))
  let sorted := List.insertionSort distLe scored
  let top := sorted.take k
  top ++ List.replicate (k - top.length) (-1, floatMax)

/-- In-memory state of a `FAISSManager` object: `self.index` and
`self.doc_mapping`. The mapping is a Python dict int → str, modelled as an
association list in insertion order with unique keys. -/
structure FAISSManager where
  index : Option FlatIndex
  doc_mapping : List (Nat × Document)
  deriving DecidableEq, Repr

/-- Python dict assignment `m[k] = v`: overwrite in place if the key exists,
otherwise append. -/
def dictInsert (m : List (Nat × Document)) (k : Nat) (v : Document) :
    List (Nat × Document) :=
  if m.any (fun p => p.1 == k) then
    m.map (fun p => if p.1 == k then (k, v) else p)
  else m ++ [(k, v)]

/-- Python dict lookup `m[i]` with a faiss int64 id `i` (which may be `-1`):
`none` models a KeyError. -/
def dictGet (m : List (Nat × Document)) (i : Int) : Option Document :=
  (m.find? (fun p => (p.1 : Int) == i)).map (fun p => p.2)

-- Constants from config.py.

def FAISS_INDEX_PATH : String := "faiss_index"

def INDEX_FILE_NAME : String := "index.faiss"

def INDEX_MAPPING_FILE_NAME : String := "index_mapping.pkl"

/-- Python's `str.upper()` (over the ASCII ticker alphabet), applied
character-wise. -/
def pyUpper (s : String) : String :=
  ⟨s.data.map Char.toUpper⟩

-- FAISSManager._get_paths

def index_file (ticker : String) : String :=
  pyUpper ticker ++ "_" ++ INDEX_FILE_NAME

def mapping_file (ticker : String) : String :=
  pyUpper ticker ++ "_" ++ INDEX_MAPPING_FILE_NAME

def local_index_path (ticker : String) : String :=
  FAISS_INDEX_PATH ++ "/" ++ index_file ticker

def local_mapping_path (ticker : String) : String :=
  FAISS_INDEX_PATH ++ "/" ++ mapping_file ticker

/-- `FAISSManager.load_index`.  Reads both ticker-specific files if both exist
(`faiss.read_index` / `pickle.load` raise on malformed contents); if either is
missing, resets the in-memory state and returns `false`. -/
def load_index (fs : FS) (st : FAISSManager) (ticker : String) :
    FAISSManager × Except Err Bool :=
  match fsGet fs (local_index_path ticker), fsGet fs (local_mapping_path ticker) with
  | some fi, some fm =>
    match fi with
    | .indexData d vecs =>
      match fm with
      | .mappingData m => ({ index := some ⟨d, vecs⟩, doc_mapping := m }, .ok true)
      | _ => ({ st with index := some ⟨d, vecs⟩ }, .error .deserialize)
    | _ => (st, .error .deserialize)
  | _, _ => ({ index := none, doc_mapping := [] }, .ok false)

/-- `FAISSManager.save_index`: writes both artifacts when `self.index` is not
`None` (a faiss index object is always truthy), otherwise does nothing. -/
def save_index (fs : FS) (st : FAISSManager) (ticker : String) : FS :=
  match st.index with
  | some idx =>
    fsSet (fsSet fs (local_index_path ticker) (.indexData idx.d idx.vecs))
      (local_mapping_path ticker) (.mappingData st.doc_mapping)
  | none => fs

/-- `FAISSManager.create_index`.  With an empty embeddings list it prints and
returns (no error, no index established).  Otherwise it builds a fresh
`IndexFlatL2` of the first vector's length, adds the batch (numpy/faiss raise on
a ragged batch or rows of another length, after `self.index` was already
replaced by the fresh empty index), and rebuilds the mapping from `documents`
regardless of whether its length matches. -/
def create_index (st : FAISSManager) (embeddings : List Vec)
    (documents : List Document) : FAISSManager × Option Err :=
  if embeddings.isEmpty then (st, none)
  else
    let dimension := (embeddings.headD []).length
    if embeddings.all (fun v => v.length = dimension) then
      ({ index := some ⟨dimension, embeddings⟩,
         doc_mapping := documents.enum }, none)
    else
      ({ st with index := some ⟨dimension, []⟩ }, some .dimensionMismatch)

/-- `FAISSManager.add_to_index`: load the ticker's index (create a fresh one if
none exists), add the batch, extend the mapping from `len(self.doc_mapping)`,
and save.  An exception from faiss propagates before the mapping is touched and
before anything is saved. -/
def add_to_index (fs : FS) (st : FAISSManager) (ticker : String)
    (new_embeddings : List Vec) (new_documents : List Document) :
    FS × FAISSManager × Option Err :=
  match load_index fs st ticker with
  | (st1, .error e) => (fs, st1, some e)
  | (st1, .ok _) =>
    match st1.index with
    | none =>
      match create_index st1 new_embeddings new_documents with
      | (st2, some e) => (fs, st2, some e)
      | (st2, none) => (save_index fs st2 ticker, st2, none)
    | some idx =>
      match idx.add new_embeddings with
      | .error e => (fs, st1, some e)
      | .ok idx2 =>
        let start_index := st1.doc_mapping.length
        let st2 : FAISSManager :=
          { index := some idx2,
            doc_mapping :=
              new_documents.enum.foldl
                (fun m p => dictInsert m (start_index + p.1) p.2)
                st1.doc_mapping }
        (save_index fs st2 ticker, st2, none)

/-- Turns the (id, distance) rows returned by faiss into (document, distance)
pairs via `self.doc_mapping[i]`; a missing key (notably the padding id `-1`)
raises a KeyError. -/
def lookupAll (m : List (Nat × Document)) :
    List (Int × Rat) → Except Err (List (Document × Rat))
  | [] => .ok []
  | (i, dist) :: rest =>
    match dictGet m i with
    | none => .error (.keyError i)
    | some doc =>
      match lookupAll m rest with
      | .error e => .error e
      | .ok tail => .ok ((doc, dist) :: tail)

/-- `FAISSManager.search`: load the ticker's index, returning `[]` when none is
persisted; otherwise run the faiss query (the faiss wrapper asserts the query
dimensionality matches and `k > 0`) and translate ids through the mapping. -/
def search (fs : FS) (st : FAISSManager) (ticker : String) (query_embedding : Vec)
    (k : Nat) : FAISSManager × Except Err (List (Document × Rat)) :=
  match load_index fs st ticker with
  | (st1, .error e) => (st1, .error e)
  | (st1, .ok loaded) =>
    if !loaded then (st1, .ok [])
    else
      match st1.index with
      | none => (st1, .ok [])
      | some idx =>
        if query_embedding.length = idx.d then
          if k = 0 then (st1, .error .dimensionMismatch)
          else (st1, lookupAll st1.doc_mapping (idx.searchIds query_embedding k))
        else (st1, .error .dimensionMismatch)

abbrev Azure := List (String × FileData)

/-- One iteration of the `sync_to_azure` loop: upload the artifact if the local
file exists; `failUpload` says whether the blob-store call for that blob name
raises.  There is no try/except in the source, so a raised error propagates. -/
def upload_one (fs : FS) (az : Azure) (failUpload : String → Bool)
    (localPath blobName : String) : Azure × Option Err :=
  match fsGet fs localPath with
  | none => (az, none)
  | some data =>
    if failUpload blobName then (az, some .remoteTransport)
    else (fsSet az blobName data, none)

/-- `FAISSManager.sync_to_azure`: uploads the index artifact then the mapping
artifact; an exception in the first upload aborts the call before the second is
attempted; on completion the function returns `None` (no success flag). -/
def sync_to_azure (fs : FS) (az : Azure) (failUpload : String → Bool)
    (ticker : String) : Azure × Option Err :=
  match upload_one fs az failUpload (local_index_path ticker) (index_file ticker) with
  | (az1, some e) => (az1, some e)
  | (az1, none) =>
    upload_one fs az1 failUpload (local_mapping_path ticker) (mapping_file ticker)

/-- One iteration of the `sync_from_azure` loop: `open(local_path, "wb")`
truncates the local file first; then the blob is downloaded and written, or the
exception is caught and the iteration reports failure, leaving the truncated
file behind. -/
def download_one (fs : FS) (az : Azure) (localPath blobName : String) :
    FS × Bool :=
  let fs1 := fsSet fs localPath .empty
  match fsGet az blobName with
  | none => (fs1, false)
  | some data => (fsSet fs1 localPath data, true)

/-- `FAISSManager.sync_from_azure`: attempts both downloads (each iteration
catches its own exception), then loads the index only if both succeeded, and
returns the overall success flag. -/
def sync_from_azure (fs : FS) (st : FAISSManager) (az : Azure) (ticker : String) :
    FS × FAISSManager × Except Err Bool :=
  let r1 := download_one fs az (local_index_path ticker) (index_file ticker)
  let r2 := download_one r1.1 az (local_mapping_path ticker) (mapping_file ticker)
  let success := r1.2 && r2.2
  if success then
    match load_index r2.1 st ticker with
    | (st1, .error e) => (r2.1, st1, .error e)
    | (st1, .ok _) => (r2.1, st1, .ok success)
  else (r2.1, st, .ok success)

/-- `RAGRetriever.retrieve`: `embed` models `get_openai_embedding` (returns
`None` on failure).  On embedding failure returns the could-not-embed sentinel;
on an empty search result the no-context sentinel; otherwise the documents
joined with the fixed separator, distances discarded.  An exception raised by
`search` propagates. -/
def retrieve (fs : FS) (st : FAISSManager) (embed : String → Option Vec)
    (ticker : String) (query : String) (k : Nat) :
    FAISSManager × Except Err String :=
  match embed query with
  | none => (st, .ok "Could not generate embedding for the query.")
  | some q =>
    match search fs st ticker q k with
    | (st1, .error e) => (st1, .error e)
    | (st1, .ok results) =>
      if results.isEmpty then
        (st1, .ok ("No context found for ticker: " ++ ticker ++
          ". Index may be empty or not yet scraped."))
      else
        (st1, .ok (String.intercalate "\n---\n" (results.map (fun r => r.1))))

-- Helper lemmas about the filesystem model.

theorem fsGet_fsSet_self (fs : FS) (p : String) (d : FileData) :
    fsGet (fsSet fs p d) p = some d := by
  simp [fsGet, fsSet, List.find?]

theorem fsGet_fsSet_ne (fs : FS) (p q : String) (d : FileData) (h : p ≠ q) :
    fsGet (fsSet fs p d) q = fsGet fs q := by
  have hb : (p == q) = false := by simp [h]
  simp [fsGet, fsSet, List.find?, hb]

-- Helper lemmas about the ticker-qualified path strings.

theorem string_append_mid_inj (p c s u1 u2 : String)
    (h : p ++ (u1 ++ c ++ s) = p ++ (u2 ++ c ++ s)) : u1 = u2 := by
  have hd := congrArg String.data h
  simp only [String.data_append] at hd
  have h1 := List.append_cancel_left hd
  have h2 := List.append_cancel_right h1
  exact String.ext (List.append_cancel_right h2)

theorem local_index_path_last (t : String) :
    (local_index_path t).data.getLast? = some 's' := by
  show ((FAISS_INDEX_PATH ++ "/" ++ (pyUpper t ++ "_" ++ INDEX_FILE_NAME))).data.getLast?
      = some 's'
  rw [String.data_append, String.data_append, String.data_append]
  rw [List.getLast?_append_of_ne_nil _ (by simp [INDEX_FILE_NAME])]
  rw [List.getLast?_append_of_ne_nil _ (by decide)]
  decide

theorem local_mapping_path_last (t : String) :
    (local_mapping_path t).data.getLast? = some 'l' := by
  show ((FAISS_INDEX_PATH ++ "/" ++ (pyUpper t ++ "_" ++ INDEX_MAPPING_FILE_NAME))).data.getLast?
      = some 'l'
  rw [String.data_append, String.data_append, String.data_append]
  rw [List.getLast?_append_of_ne_nil _ (by simp [INDEX_MAPPING_FILE_NAME])]
  rw [List.getLast?_append_of_ne_nil _ (by decide)]
  decide

theorem index_path_ne_mapping_path (t1 t2 : String) :
    local_index_path t1 ≠ local_mapping_path t2 := by
  intro h
  have h2 : (local_index_path t1).data.getLast? = (local_mapping_path t2).data.getLast? := by
    rw [h]
  rw [local_index_path_last, local_mapping_path_last] at h2
  exact absurd h2 (by decide)

theorem index_path_inj (t1 t2 : String) (h : pyUpper t1 ≠ pyUpper t2) :
    local_index_path t1 ≠ local_index_path t2 := by
  intro he
  exact h (string_append_mid_inj (FAISS_INDEX_PATH ++ "/") "_" INDEX_FILE_NAME _ _
    (by simpa [local_index_path, index_file, String.append_assoc] using he))

theorem mapping_path_inj (t1 t2 : String) (h : pyUpper t1 ≠ pyUpper t2) :
    local_mapping_path t1 ≠ local_mapping_path t2 := by
  intro he
  exact h (string_append_mid_inj (FAISS_INDEX_PATH ++ "/") "_" INDEX_MAPPING_FILE_NAME _ _
    (by simpa [local_mapping_path, mapping_file, String.append_assoc] using he))

-- Frame lemmas: which files an operation reads and writes.

theorem load_index_congr (fs1 fs2 : FS) (st : FAISSManager) (t : String)
    (h1 : fsGet fs1 (local_index_path t) = fsGet fs2 (local_index_path t))
    (h2 : fsGet fs1 (local_mapping_path t) = fsGet fs2 (local_mapping_path t)) :
    load_index fs1 st t = load_index fs2 st t := by
  unfold load_index
  rw [h1, h2]

theorem search_congr (fs1 fs2 : FS) (st : FAISSManager) (t : String) (q : Vec) (k : Nat)
    (h1 : fsGet fs1 (local_index_path t) = fsGet fs2 (local_index_path t))
    (h2 : fsGet fs1 (local_mapping_path t) = fsGet fs2 (local_mapping_path t)) :
    search fs1 st t q k = search fs2 st t q k := by
  unfold search
  rw [load_index_congr fs1 fs2 st t h1 h2]

theorem fsGet_save_index_ne (fs : FS) (st : FAISSManager) (t : String) (p : String)
    (h1 : p ≠ local_index_path t) (h2 : p ≠ local_mapping_path t) :
    fsGet (save_index fs st t) p = fsGet fs p := by
  unfold save_index
  cases st.index with
  | none => rfl
  | some idx =>
    rw [fsGet_fsSet_ne _ _ _ _ (Ne.symm h2), fsGet_fsSet_ne _ _ _ _ (Ne.symm h1)]

theorem fsGet_add_to_index_ne (fs : FS) (st : FAISSManager) (t : String)
    (es : List Vec) (ds : List Document) (p : String)
    (h1 : p ≠ local_index_path t) (h2 : p ≠ local_mapping_path t) :
    fsGet (add_to_index fs st t es ds).1 p = fsGet fs p := by
  unfold add_to_index
  split
  · rfl
  · split
    · split
      · rfl
      · exact fsGet_save_index_ne fs _ t p h1 h2
    · split
      · rfl
      · dsimp only
        exact fsGet_save_index_ne fs _ t p h1 h2

/-- C6: for tickers that are distinct after uppercase normalization, appending
documents to T1 never changes the result of a subsequent search against T2, and
T2's persisted artifacts (index file and mapping file) are untouched, so T2's
index never contains documents or vectors ingested for T1. -/
theorem c6_per_ticker_isolation (fs : FS) (st st2 : FAISSManager) (t1 t2 : String)
    (hne : pyUpper t1 ≠ pyUpper t2) (es : List Vec) (ds : List Document)
    (q : Vec) (k : Nat) :
    search (add_to_index fs st t1 es ds).1 st2 t2 q k = search fs st2 t2 q k ∧
    fsGet (add_to_index fs st t1 es ds).1 (local_index_path t2)
      = fsGet fs (local_index_path t2) ∧
    fsGet (add_to_index fs st t1 es ds).1 (local_mapping_path t2)
      = fsGet fs (local_mapping_path t2) := by
  have hii : local_index_path t2 ≠ local_index_path t1 :=
    index_path_inj t2 t1 (Ne.symm hne)
  have him : local_index_path t2 ≠ local_mapping_path t1 :=
    index_path_ne_mapping_path t2 t1
  have hmi : local_mapping_path t2 ≠ local_index_path t1 :=
    Ne.symm (index_path_ne_mapping_path t1 t2)
  have hm2 : local_mapping_path t2 ≠ local_mapping_path t1 :=
    mapping_path_inj t2 t1 (Ne.symm hne)
  have hfi := fsGet_add_to_index_ne fs st t1 es ds (local_index_path t2) hii him
  have hfm := fsGet_add_to_index_ne fs st t1 es ds (local_mapping_path t2) hmi hm2
  exact ⟨search_congr _ fs st2 t2 q k hfi hfm, hfi, hfm⟩

theorem c6_witness :
    pyUpper "aapl" ≠ pyUpper "msft" ∧
    search (add_to_index [] ⟨none, []⟩ "aapl" [[1]] ["doc"]).1 ⟨none, []⟩ "msft" [1] 3
      = search [] ⟨none, []⟩ "msft" [1] 3 :=
  ⟨by decide,
   (c6_per_ticker_isolation [] ⟨none, []⟩ ⟨none, []⟩ "aapl" "msft" (by decide)
     [[1]] ["doc"] [1] 3).1⟩

/-- C8: searching a ticker for which no persisted state exists returns an empty
result list for every query vector and every k, and raises no error. -/
theorem c8_search_never_created (fs : FS) (st : FAISSManager) (t : String)
    (q : Vec) (k : Nat)
    (h1 : fsGet fs (local_index_path t) = none)
    (h2 : fsGet fs (local_mapping_path t) = none) :
    search fs st t q k = ({ index := none, doc_mapping := [] }, Except.ok []) := by
  unfold search load_index
  rw [h1, h2]
  rfl

theorem c8_witness :
    search [] ⟨none, []⟩ "GOOG" [1] 5
      = ({ index := none, doc_mapping := [] }, Except.ok []) :=
  c8_search_never_created [] ⟨none, []⟩ "GOOG" [1] 5 rfl rfl

/-- C10: `load_index` returns true only when both local artifacts exist; if
either is missing (including a half-present pair), it resets the in-memory
state to empty and returns false without raising. -/
theorem c10_load_requires_both_halves (fs : FS) (st : FAISSManager) (t : String) :
    ((fsGet fs (local_index_path t) = none ∨ fsGet fs (local_mapping_path t) = none) →
      load_index fs st t = ({ index := none, doc_mapping := [] }, Except.ok false)) ∧
    ((load_index fs st t).2 = Except.ok true →
      (fsGet fs (local_index_path t)).isSome ∧ (fsGet fs (local_mapping_path t)).isSome) := by
  cases hfi : fsGet fs (local_index_path t) with
  | none =>
    refine ⟨fun _ => ?_, fun h => ?_⟩
    · unfold load_index; rw [hfi]
    · unfold load_index at h; rw [hfi] at h; simp at h
  | some fi =>
    cases hfm : fsGet fs (local_mapping_path t) with
    | none =>
      refine ⟨fun _ => ?_, fun h => ?_⟩
      · unfold load_index; rw [hfi, hfm]
      · unfold load_index at h; rw [hfi, hfm] at h; simp at h
    | some fm =>
      refine ⟨fun h => ?_, fun _ => ⟨by simp [hfi], by simp [hfm]⟩⟩
      rcases h with h | h
      · exact absurd h (by simp)
      · exact absurd h (by simp)

theorem c10_witness :
    load_index [(local_index_path "NVDA", FileData.indexData 1 [[1]])] ⟨none, []⟩ "NVDA"
      = ({ index := none, doc_mapping := [] }, Except.ok false) :=
  (c10_load_requires_both_halves
    [(local_index_path "NVDA", FileData.indexData 1 [[1]])] ⟨none, []⟩ "NVDA").1
    (Or.inr (by decide))

-- Characterizations of sync_from_azure by the remote state.

theorem sync_from_azure_both_missing (fs : FS) (st : FAISSManager) (az : Azure)
    (t : String) (hI : fsGet az (index_file t) = none)
    (hM : fsGet az (mapping_file t) = none) :
    sync_from_azure fs st az t =
      (fsSet (fsSet fs (local_index_path t) .empty) (local_mapping_path t) .empty,
       st, Except.ok false) := by
  unfold sync_from_azure download_one
  rw [hI, hM]
  rfl

theorem sync_from_azure_mapping_missing (fs : FS) (st : FAISSManager) (az : Azure)
    (t : String) (dIdx : FileData) (hI : fsGet az (index_file t) = some dIdx)
    (hM : fsGet az (mapping_file t) = none) :
    sync_from_azure fs st az t =
      (fsSet (fsSet (fsSet fs (local_index_path t) .empty) (local_index_path t) dIdx)
         (local_mapping_path t) .empty,
       st, Except.ok false) := by
  unfold sync_from_azure download_one
  rw [hI, hM]
  rfl

theorem sync_from_azure_index_missing (fs : FS) (st : FAISSManager) (az : Azure)
    (t : String) (dMap : FileData) (hI : fsGet az (index_file t) = none)
    (hM : fsGet az (mapping_file t) = some dMap) :
    sync_from_azure fs st az t =
      (fsSet (fsSet (fsSet fs (local_index_path t) .empty) (local_mapping_path t) .empty)
         (local_mapping_path t) dMap,
       st, Except.ok false) := by
  unfold sync_from_azure download_one
  rw [hI, hM]
  rfl

theorem sync_from_azure_both_present (fs : FS) (st : FAISSManager) (az : Azure)
    (t : String) (d : Nat) (vecs : List Vec) (m : List (Nat × Document))
    (hI : fsGet az (index_file t) = some (.indexData d vecs))
    (hM : fsGet az (mapping_file t) = some (.mappingData m)) :
    (sync_from_azure fs st az t).2 =
      ({ index := some ⟨d, vecs⟩, doc_mapping := m }, Except.ok true) := by
  have hne : local_index_path t ≠ local_mapping_path t := index_path_ne_mapping_path t t
  unfold sync_from_azure download_one
  rw [hI, hM]
  have hip : fsGet
      (fsSet (fsSet (fsSet (fsSet fs (local_index_path t) .empty)
        (local_index_path t) (.indexData d vecs)) (local_mapping_path t) .empty)
        (local_mapping_path t) (.mappingData m)) (local_index_path t)
      = some (.indexData d vecs) := by
    rw [fsGet_fsSet_ne _ _ _ _ (Ne.symm hne), fsGet_fsSet_ne _ _ _ _ (Ne.symm hne),
      fsGet_fsSet_self]
  have hmp : fsGet
      (fsSet (fsSet (fsSet (fsSet fs (local_index_path t) .empty)
        (local_index_path t) (.indexData d vecs)) (local_mapping_path t) .empty)
        (local_mapping_path t) (.mappingData m)) (local_mapping_path t)
      = some (.mappingData m) := by
    rw [fsGet_fsSet_self]
  have hload : load_index
      (fsSet (fsSet (fsSet (fsSet fs (local_index_path t) .empty)
        (local_index_path t) (.indexData d vecs)) (local_mapping_path t) .empty)
        (local_mapping_path t) (.mappingData m)) st t
      = ({ index := some ⟨d, vecs⟩, doc_mapping := m }, Except.ok true) := by
    unfold load_index
    rw [hip, hmp]
  simp only [hload]
  rfl

/-- C2 (amended): `sync_from_azure` attempts both downloads independently and
returns a success flag that is true only when both artifacts were retrieved;
but on a failed download the local file of the failed artifact is truncated to
a zero-byte file (it is opened for writing before the download begins), not
left unchanged. -/
theorem c2_amended (fs : FS) (st : FAISSManager) (az : Azure) (t : String) :
    (fsGet az (mapping_file t) = none →
      fsGet (sync_from_azure fs st az t).1 (local_mapping_path t) = some .empty ∧
      (sync_from_azure fs st az t).2.2 = Except.ok false ∧
      ∀ dIdx, fsGet az (index_file t) = some dIdx →
        fsGet (sync_from_azure fs st az t).1 (local_index_path t) = some dIdx) ∧
    (fsGet az (index_file t) = none →
      fsGet (sync_from_azure fs st az t).1 (local_index_path t) = some .empty ∧
      (sync_from_azure fs st az t).2.2 = Except.ok false ∧
      ∀ dMap, fsGet az (mapping_file t) = some dMap →
        fsGet (sync_from_azure fs st az t).1 (local_mapping_path t) = some dMap) ∧
    (∀ d vecs m, fsGet az (index_file t) = some (.indexData d vecs) →
      fsGet az (mapping_file t) = some (.mappingData m) →
      (sync_from_azure fs st az t).2.2 = Except.ok true) := by
  have hne : local_index_path t ≠ local_mapping_path t := index_path_ne_mapping_path t t
  refine ⟨fun hM => ?_, fun hI => ?_, fun d vecs m hI hM => ?_⟩
  · cases hI : fsGet az (index_file t) with
    | none =>
      rw [sync_from_azure_both_missing fs st az t hI hM]
      refine ⟨fsGet_fsSet_self _ _ _, rfl, fun dIdx hx => ?_⟩
      exact absurd hx (by simp)
    | some dIdx0 =>
      rw [sync_from_azure_mapping_missing fs st az t dIdx0 hI hM]
      refine ⟨fsGet_fsSet_self _ _ _, rfl, fun dIdx hx => ?_⟩
      rw [fsGet_fsSet_ne _ _ _ _ (Ne.symm hne), fsGet_fsSet_self]
      exact congrArg some (Option.some_injective _ hx)
  · cases hM : fsGet az (mapping_file t) with
    | none =>
      rw [sync_from_azure_both_missing fs st az t hI hM]
      refine ⟨?_, rfl, fun dMap hx => ?_⟩
      · rw [fsGet_fsSet_ne _ _ _ _ (Ne.symm hne), fsGet_fsSet_self]
      · exact absurd hx (by simp)
    | some dMap0 =>
      rw [sync_from_azure_index_missing fs st az t dMap0 hI hM]
      refine ⟨?_, rfl, fun dMap hx => ?_⟩
      · rw [fsGet_fsSet_ne _ _ _ _ (Ne.symm hne), fsGet_fsSet_ne _ _ _ _ (Ne.symm hne),
          fsGet_fsSet_self]
      · rw [fsGet_fsSet_self]
        exact congrArg some (Option.some_injective _ hx)
  · rw [sync_from_azure_both_present fs st az t d vecs m hI hM]

theorem c2_counterexample :
    fsGet [(local_mapping_path "NVDA", FileData.mappingData [(0, "old")])]
        (local_mapping_path "NVDA") = some (FileData.mappingData [(0, "old")]) ∧
    fsGet (sync_from_azure [(local_mapping_path "NVDA", FileData.mappingData [(0, "old")])]
        ⟨none, []⟩ [] "NVDA").1 (local_mapping_path "NVDA") = some FileData.empty := by
  constructor <;> decide

theorem c2_witness :
    fsGet (sync_from_azure [(local_mapping_path "AAPL", FileData.mappingData [(0, "x")])]
        ⟨none, []⟩ [] "AAPL").1 (local_mapping_path "AAPL") = some FileData.empty ∧
    (sync_from_azure [(local_mapping_path "AAPL", FileData.mappingData [(0, "x")])]
        ⟨none, []⟩ [] "AAPL").2.2 = Except.ok false :=
  ⟨((c2_amended [(local_mapping_path "AAPL", FileData.mappingData [(0, "x")])]
      ⟨none, []⟩ [] "AAPL").1 (by decide)).1,
   ((c2_amended [(local_mapping_path "AAPL", FileData.mappingData [(0, "x")])]
      ⟨none, []⟩ [] "AAPL").1 (by decide)).2.1⟩

/-- C3 (amended): `sync_to_azure` uploads the index artifact and then the
mapping artifact with no error handling: a failing first upload raises and the
second is never attempted, and the call returns `None` on completion rather
than a success boolean. -/
theorem c3_amended (fs : FS) (az : Azure) (failUpload : String → Bool) (t : String) :
    (∀ dIdx, fsGet fs (local_index_path t) = some dIdx →
      failUpload (index_file t) = true →
      sync_to_azure fs az failUpload t = (az, some Err.remoteTransport)) ∧
    (failUpload (index_file t) = false → failUpload (mapping_file t) = false →
      (sync_to_azure fs az failUpload t).2 = none) := by
  constructor
  · intro dIdx hip hf
    unfold sync_to_azure upload_one
    rw [hip, hf]
    rfl
  · intro hf1 hf2
    unfold sync_to_azure upload_one
    cases hip : fsGet fs (local_index_path t) with
    | none =>
      cases hmp : fsGet fs (local_mapping_path t) with
      | none => rfl
      | some d2 => rw [hf2]; rfl
    | some d1 =>
      rw [hf1]
      cases hmp : fsGet fs (local_mapping_path t) with
      | none => rfl
      | some d2 => rw [hf2]; rfl

theorem c3_counterexample :
    sync_to_azure
        [(local_index_path "NVDA", FileData.indexData 1 [[1]]),
         (local_mapping_path "NVDA", FileData.mappingData [(0, "doc")])]
        [] (fun n => n == index_file "NVDA") "NVDA"
      = ([], some Err.remoteTransport) := by
  decide

theorem c3_witness :
    sync_to_azure [(local_index_path "AAPL", FileData.indexData 1 [[2]])] []
        (fun _ => true) "AAPL" = ([], some Err.remoteTransport) :=
  (c3_amended [(local_index_path "AAPL", FileData.indexData 1 [[2]])] []
    (fun _ => true) "AAPL").1 (FileData.indexData 1 [[2]]) (by decide) rfl

-- Characterizations of create_index and FlatIndex.add.

theorem create_index_empty (st : FAISSManager) (ds : List Document) :
    create_index st [] ds = (st, none) := rfl

theorem create_index_ok (st : FAISSManager) (es : List Vec) (ds : List Document)
    (h1 : es ≠ []) (h2 : (es.all fun v => v.length = (es.headD []).length) = true) :
    create_index st es ds =
      ({ index := some ⟨(es.headD []).length, es⟩, doc_mapping := ds.enum }, none) := by
  have h0 : es.isEmpty = false := by
    cases es with
    | nil => exact absurd rfl h1
    | cons a l => rfl
  unfold create_index
  rw [h0]
  dsimp only
  rw [if_pos h2]
  rfl

theorem flatIndex_add_ok (d : Nat) (vecs es : List Vec) (h1 : es ≠ [])
    (h2 : (es.all fun v => v.length = d) = true) :
    FlatIndex.add ⟨d, vecs⟩ es = Except.ok ⟨d, vecs ++ es⟩ := by
  have h0 : es.isEmpty = false := by
    cases es with
    | nil => exact absurd rfl h1
    | cons a l => rfl
  unfold FlatIndex.add
  rw [h0]
  dsimp only
  rw [if_pos h2]
  rfl

theorem flatIndex_add_mismatch (d : Nat) (vecs es : List Vec) (e : Vec)
    (he : e ∈ es) (hlen : e.length ≠ d) :
    FlatIndex.add ⟨d, vecs⟩ es = Except.error Err.dimensionMismatch := by
  have h0 : es.isEmpty = false := by
    cases es with
    | nil => cases he
    | cons a l => rfl
  have h2 : (es.all fun v => v.length = d) = false := by
    rw [List.all_eq_false]
    exact ⟨e, he, by simp [hlen]⟩
  unfold FlatIndex.add
  rw [h0]
  dsimp only
  rw [h2]
  rfl

theorem load_index_both (fs : FS) (st : FAISSManager) (t : String) (d : Nat)
    (vecs : List Vec) (m : List (Nat × Document))
    (hip : fsGet fs (local_index_path t) = some (.indexData d vecs))
    (hmp : fsGet fs (local_mapping_path t) = some (.mappingData m)) :
    load_index fs st t = ({ index := some ⟨d, vecs⟩, doc_mapping := m }, Except.ok true) := by
  unfold load_index
  rw [hip, hmp]

/-- C5 (amended): `create_index` performs no input validation and never raises
an input error: an empty embeddings list is a silent no-op (no error, state
unchanged, no index established), and a nonempty batch of uniform
dimensionality establishes the index and mapping even when the lengths of
`embeddings` and `documents` differ. -/
theorem c5_amended (st : FAISSManager) (es : List Vec) (ds : List Document) :
    (es = [] → create_index st es ds = (st, none)) ∧
    (es ≠ [] → (es.all fun v => v.length = (es.headD []).length) = true →
      create_index st es ds =
        ({ index := some ⟨(es.headD []).length, es⟩, doc_mapping := ds.enum }, none)) := by
  constructor
  · intro h
    subst h
    exact create_index_empty st ds
  · intro h1 h2
    exact create_index_ok st es ds h1 h2

theorem c5_counterexample :
    create_index ⟨none, []⟩ [] ["doc"] = (⟨none, []⟩, none) ∧
    create_index ⟨none, []⟩ [[1], [2]] ["only"] =
      ({ index := some ⟨1, [[1], [2]]⟩, doc_mapping := [(0, "only")] }, none) := by
  constructor <;> rfl

theorem c5_witness :
    create_index ⟨none, []⟩ [[1], [2]] ["a"] =
      ({ index := some ⟨1, [[1], [2]]⟩, doc_mapping := [(0, "a")] }, none) :=
  (c5_amended ⟨none, []⟩ [[1], [2]] ["a"]).2 (by decide) (by decide)

/-- C4: appending a batch containing a vector whose length differs from the
index's established dimensionality fails with the dimension-mismatch error and
mutates nothing: the filesystem (hence the persisted index, its slot count and
stored slots) is returned unchanged, and the in-memory state is exactly the
loaded copy of the persisted index. -/
theorem c4_dimension_mismatch_no_mutation (fs : FS) (st : FAISSManager) (t : String)
    (d : Nat) (vecs : List Vec) (m : List (Nat × Document)) (es : List Vec)
    (ds : List Document) (e : Vec)
    (hip : fsGet fs (local_index_path t) = some (.indexData d vecs))
    (hmp : fsGet fs (local_mapping_path t) = some (.mappingData m))
    (he : e ∈ es) (hlen : e.length ≠ d) :
    add_to_index fs st t es ds =
      (fs, { index := some ⟨d, vecs⟩, doc_mapping := m }, some Err.dimensionMismatch) := by
  have hload := load_index_both fs st t d vecs m hip hmp
  have hadd := flatIndex_add_mismatch d vecs es e he hlen
  unfold add_to_index
  rw [hload]
  simp only [hadd]

theorem c4_witness :
    add_to_index
        [(local_index_path "NVDA", FileData.indexData 1 [[1]]),
         (local_mapping_path "NVDA", FileData.mappingData [(0, "doc")])]
        ⟨none, []⟩ "NVDA" [[1, 2]] ["bad"] =
      ([(local_index_path "NVDA", FileData.indexData 1 [[1]]),
        (local_mapping_path "NVDA", FileData.mappingData [(0, "doc")])],
       { index := some ⟨1, [[1]]⟩, doc_mapping := [(0, "doc")] },
       some Err.dimensionMismatch) :=
  c4_dimension_mismatch_no_mutation _ ⟨none, []⟩ "NVDA" 1 [[1]] [(0, "doc")]
    [[1, 2]] ["bad"] [1, 2] (by decide) (by decide) (by decide) (by decide)

-- The mapping-update loop of add_to_index inserts only fresh keys, so it
-- appends.

theorem dictInsert_fresh (m : List (Nat × Document)) (k : Nat) (v : Document)
    (h : ∀ p ∈ m, p.1 ≠ k) : dictInsert m k v = m ++ [(k, v)] := by
  have hany : (m.any fun p => p.1 == k) = false := by
    rw [List.any_eq_false]
    intro p hp
    simp [h p hp]
  unfold dictInsert
  rw [hany]
  rfl

theorem foldl_dictInsert_enumFrom (start : Nat) (ds : List Document) :
    ∀ (j : Nat) (m : List (Nat × Document)), (∀ p ∈ m, p.1 < start + j) →
    (List.enumFrom j ds).foldl (fun acc p => dictInsert acc (start + p.1) p.2) m
      = m ++ (List.enumFrom j ds).map (fun p => (start + p.1, p.2)) := by
  induction ds with
  | nil => intro j m _; simp [List.enumFrom]
  | cons dd tl ih =>
    intro j m h
    have hstep : List.enumFrom j (dd :: tl) = (j, dd) :: List.enumFrom (j + 1) tl := rfl
    rw [hstep, List.foldl_cons, List.map_cons]
    rw [show dictInsert m (start + j) dd = m ++ [(start + j, dd)] from
      dictInsert_fresh m (start + j) dd (fun p hp => Nat.ne_of_lt (h p hp))]
    rw [ih (j + 1) (m ++ [(start + j, dd)]) ?_]
    · rw [List.append_assoc]
      rfl
    · intro p hp
      rcases List.mem_append.mp hp with hp | hp
      · exact Nat.lt_trans (h p hp) (by omega)
      · have : p = (start + j, dd) := by simpa using hp
        subst this
        omega

theorem mapping_after_append (m : List (Nat × Document)) (ds : List Document)
    (hm : m.map Prod.fst = List.range m.length) :
    ds.enum.foldl (fun acc p => dictInsert acc (m.length + p.1) p.2) m
      = m ++ ds.enum.map (fun p => (m.length + p.1, p.2)) ∧
    (m ++ ds.enum.map (fun p => (m.length + p.1, p.2))).map Prod.fst
      = List.range (m.length + ds.length) ∧
    (m ++ ds.enum.map (fun p => (m.length + p.1, p.2))).length
      = m.length + ds.length := by
  have hk : ∀ p ∈ m, p.1 < m.length + 0 := by
    intro p hp
    have hmem : p.1 ∈ m.map Prod.fst := List.mem_map_of_mem _ hp
    rw [hm] at hmem
    simpa using List.mem_range.mp hmem
  have hfold := foldl_dictInsert_enumFrom m.length ds 0 m hk
  have henum : List.enum ds = List.enumFrom 0 ds := rfl
  refine ⟨by rw [henum]; exact hfold, ?_, ?_⟩
  · rw [List.map_append, hm, List.map_map]
    have hfst : ds.enum.map (Prod.fst ∘ fun p => (m.length + p.1, p.2))
        = (ds.enum.map Prod.fst).map (fun x => m.length + x) := by
      rw [List.map_map]
      rfl
    rw [hfst, List.enum_map_fst, ← List.range_add]
  · rw [List.length_append, List.length_map, List.enum_length]

theorem load_index_absent (fs : FS) (st : FAISSManager) (t : String)
    (h : fsGet fs (local_index_path t) = none ∨ fsGet fs (local_mapping_path t) = none) :
    load_index fs st t = ({ index := none, doc_mapping := [] }, Except.ok false) := by
  rcases h with h | h
  · unfold load_index; rw [h]
  · cases hfi : fsGet fs (local_index_path t) with
    | none => unfold load_index; rw [hfi]
    | some fi => unfold load_index; rw [hfi, h]

theorem fsGet_save_index_some (fs : FS) (idx : FlatIndex)
    (dm : List (Nat × Document)) (t : String) :
    fsGet (save_index fs ⟨some idx, dm⟩ t) (local_index_path t)
      = some (.indexData idx.d idx.vecs) ∧
    fsGet (save_index fs ⟨some idx, dm⟩ t) (local_mapping_path t)
      = some (.mappingData dm) := by
  have hne := index_path_ne_mapping_path t t
  unfold save_index
  dsimp only
  exact ⟨by rw [fsGet_fsSet_ne _ _ _ _ (Ne.symm hne), fsGet_fsSet_self],
    by rw [fsGet_fsSet_self]⟩

/-- C7 (amended): for successful create/append calls whose embeddings and
documents lists have equal length (nonempty, dimension-consistent), the
persisted vector index and document mapping stay aligned: the mapping keys are
exactly 0..count-1, the index stores the same count of vectors, and an append
of m documents grows the count by exactly m.  (With mismatched input lengths
the call still succeeds and the invariant breaks: see the counterexample.) -/
theorem c7_amended (fs : FS) (st : FAISSManager) (t : String)
    (es : List Vec) (ds : List Document) :
    ((fsGet fs (local_index_path t) = none ∨ fsGet fs (local_mapping_path t) = none) →
      es ≠ [] → es.length = ds.length →
      (es.all fun v => v.length = (es.headD []).length) = true →
      (add_to_index fs st t es ds).2.2 = none ∧
      fsGet (add_to_index fs st t es ds).1 (local_index_path t)
        = some (.indexData (es.headD []).length es) ∧
      fsGet (add_to_index fs st t es ds).1 (local_mapping_path t)
        = some (.mappingData ds.enum) ∧
      ds.enum.map Prod.fst = List.range ds.length ∧
      ds.enum.length = es.length) ∧
    (∀ d vecs m, fsGet fs (local_index_path t) = some (.indexData d vecs) →
      fsGet fs (local_mapping_path t) = some (.mappingData m) →
      m.map Prod.fst = List.range m.length → vecs.length = m.length →
      es ≠ [] → es.length = ds.length →
      (es.all fun v => v.length = d) = true →
      ∃ m2, (add_to_index fs st t es ds).2.2 = none ∧
        fsGet (add_to_index fs st t es ds).1 (local_index_path t)
          = some (.indexData d (vecs ++ es)) ∧
        fsGet (add_to_index fs st t es ds).1 (local_mapping_path t)
          = some (.mappingData m2) ∧
        m2.map Prod.fst = List.range m2.length ∧
        m2.length = m.length + ds.length ∧
        (vecs ++ es).length = m2.length) := by
  constructor
  · intro habs hne hlen hall
    have hload := load_index_absent fs st t habs
    have hcreate := create_index_ok ⟨none, []⟩ es ds hne hall
    have heq : add_to_index fs st t es ds
        = (save_index fs ⟨some ⟨(es.headD []).length, es⟩, ds.enum⟩ t,
           ⟨some ⟨(es.headD []).length, es⟩, ds.enum⟩, none) := by
      unfold add_to_index
      rw [hload]
      simp only [hcreate]
    rw [heq]
    have hsave := fsGet_save_index_some fs ⟨(es.headD []).length, es⟩ ds.enum t
    refine ⟨rfl, hsave.1, hsave.2, List.enum_map_fst ds, ?_⟩
    rw [List.enum_length]
    exact hlen.symm
  · intro d vecs m hip hmp hkeys hcount hne hlen hall
    have hload := load_index_both fs st t d vecs m hip hmp
    have hadd := flatIndex_add_ok d vecs es hne hall
    obtain ⟨hfold, hkeys2, hlen2⟩ := mapping_after_append m ds hkeys
    refine ⟨m ++ ds.enum.map (fun p => (m.length + p.1, p.2)), ?_⟩
    have heq : add_to_index fs st t es ds
        = (save_index fs
             ⟨some ⟨d, vecs ++ es⟩, m ++ ds.enum.map (fun p => (m.length + p.1, p.2))⟩ t,
           ⟨some ⟨d, vecs ++ es⟩, m ++ ds.enum.map (fun p => (m.length + p.1, p.2))⟩,
           none) := by
      unfold add_to_index
      rw [hload]
      simp only [hadd]
      rw [hfold]
    rw [heq]
    have hsave := fsGet_save_index_some fs ⟨d, vecs ++ es⟩
      (m ++ ds.enum.map (fun p => (m.length + p.1, p.2))) t
    refine ⟨rfl, hsave.1, hsave.2, ?_, hlen2, ?_⟩
    · rw [hlen2, hkeys2]
    · rw [List.length_append, hlen2]
      omega

theorem c7_counterexample :
    fsGet (add_to_index [] ⟨none, []⟩ "NVDA" [[1], [2]] ["only"]).1 (local_index_path "NVDA")
      = some (FileData.indexData 1 [[1], [2]]) ∧
    fsGet (add_to_index [] ⟨none, []⟩ "NVDA" [[1], [2]] ["only"]).1 (local_mapping_path "NVDA")
      = some (FileData.mappingData [(0, "only")]) ∧
    (add_to_index [] ⟨none, []⟩ "NVDA" [[1], [2]] ["only"]).2.2 = none ∧
    [(0, ("only" : Document))].map Prod.fst ≠ List.range 2 :=
  ⟨by decide, by decide, by decide, by decide⟩

theorem c7_witness :
    ∃ m2,
      (add_to_index
          [(local_index_path "NVDA", FileData.indexData 1 [[1]]),
           (local_mapping_path "NVDA", FileData.mappingData [(0, "a")])]
          ⟨none, []⟩ "NVDA" [[2]] ["b"]).2.2 = none ∧
      fsGet (add_to_index
          [(local_index_path "NVDA", FileData.indexData 1 [[1]]),
           (local_mapping_path "NVDA", FileData.mappingData [(0, "a")])]
          ⟨none, []⟩ "NVDA" [[2]] ["b"]).1 (local_index_path "NVDA")
        = some (.indexData 1 ([[1]] ++ [[2]])) ∧
      fsGet (add_to_index
          [(local_index_path "NVDA", FileData.indexData 1 [[1]]),
           (local_mapping_path "NVDA", FileData.mappingData [(0, "a")])]
          ⟨none, []⟩ "NVDA" [[2]] ["b"]).1 (local_mapping_path "NVDA")
        = some (.mappingData m2) ∧
      m2.map Prod.fst = List.range m2.length ∧
      m2.length = [(0, ("a" : Document))].length + ["b"].length ∧
      ([[(1 : Rat)]] ++ [[2]]).length = m2.length :=
  (c7_amended
    [(local_index_path "NVDA", FileData.indexData 1 [[1]]),
     (local_mapping_path "NVDA", FileData.mappingData [(0, "a")])]
    ⟨none, []⟩ "NVDA" [[2]] ["b"]).2 1 [[1]] [(0, "a")]
    (by decide) (by decide) (by decide) (by decide) (by decide) (by decide) (by decide)

-- The faiss padding id -1 is never a mapping key; in-range ids always are.

theorem dictGet_neg_one (m : List (Nat × Document)) : dictGet m (-1) = none := by
  have h : List.find? (fun p => (p.1 : Int) == -1) m = none := by
    rw [List.find?_eq_none]
    intro x _
    simp only [beq_iff_eq]
    omega
  unfold dictGet
  rw [h]
  rfl

theorem dictGet_found (m : List (Nat × Document)) (n i : Nat)
    (hm : m.map Prod.fst = List.range n) (hi : i < n) :
    (dictGet m (i : Int)).isSome = true := by
  have hmem : i ∈ m.map Prod.fst := by
    rw [hm]
    exact List.mem_range.mpr hi
  rcases List.mem_map.mp hmem with ⟨p, hp, hpi⟩
  have hfind : (List.find? (fun q => (q.1 : Int) == (i : Int)) m).isSome = true := by
    rw [List.find?_isSome]
    exact ⟨p, hp, by simp [hpi]⟩
  unfold dictGet
  rcases Option.isSome_iff_exists.mp hfind with ⟨q, hq⟩
  rw [hq]
  rfl

theorem lookupAll_pad_error (m : List (Nat × Document)) (c : Rat) (ys : List (Int × Rat)) :
    ∀ xs : List (Int × Rat), (∀ x ∈ xs, (dictGet m x.1).isSome = true) →
    lookupAll m (xs ++ ((-1 : Int), c) :: ys) = Except.error (Err.keyError (-1)) := by
  intro xs
  induction xs with
  | nil =>
    intro _
    rw [List.nil_append]
    unfold lookupAll
    rw [dictGet_neg_one]
  | cons x tl ih =>
    intro hall
    obtain ⟨i, dist⟩ := x
    have hx := hall (i, dist) (by simp)
    rcases Option.isSome_iff_exists.mp hx with ⟨doc, hdoc⟩
    rw [List.cons_append]
    unfold lookupAll
    rw [hdoc, ih (fun y hy => hall y (List.mem_cons_of_mem _ hy))]

theorem searchIds_overshoot (idx : FlatIndex) (q : Vec) (k : Nat)
    (hk : idx.vecs.length < k) :
    ∃ xs : List (Int × Rat),
      idx.searchIds q k
        = xs ++ ((-1 : Int), floatMax)
            :: List.replicate (k - idx.vecs.length - 1) ((-1 : Int), floatMax) ∧
      ∀ x ∈ xs, ∃ j : Nat, j < idx.vecs.length ∧ x.1 = (j : Int) := by
  have hslen : (idx.vecs.enum.map (fun p => ((p.1 : Int), sqDist q p.2))).length
      = idx.vecs.length := by
    rw [List.length_map, List.enum_length]
  have hperm := List.perm_insertionSort distLe
    (idx.vecs.enum.map (fun p => ((p.1 : Int), sqDist q p.2)))
  have hsortlen : (List.insertionSort distLe
      (idx.vecs.enum.map (fun p => ((p.1 : Int), sqDist q p.2)))).length
      = idx.vecs.length := by
    rw [hperm.length_eq, hslen]
  have htake : (List.insertionSort distLe
      (idx.vecs.enum.map (fun p => ((p.1 : Int), sqDist q p.2)))).take k
      = List.insertionSort distLe (idx.vecs.enum.map (fun p => ((p.1 : Int), sqDist q p.2))) :=
    List.take_of_length_le (by rw [hsortlen]; omega)
  have hdef : idx.searchIds q k
      = (List.insertionSort distLe
          (idx.vecs.enum.map (fun p => ((p.1 : Int), sqDist q p.2)))).take k
        ++ List.replicate
            (k - ((List.insertionSort distLe
              (idx.vecs.enum.map (fun p => ((p.1 : Int), sqDist q p.2)))).take k).length)
            ((-1 : Int), floatMax) := rfl
  refine ⟨List.insertionSort distLe
    (idx.vecs.enum.map (fun p => ((p.1 : Int), sqDist q p.2))), ?_, ?_⟩
  · rw [hdef, htake, hsortlen]
    have hsucc : k - idx.vecs.length = (k - idx.vecs.length - 1) + 1 := by omega
    rw [hsucc, List.replicate_succ, Nat.add_sub_cancel]
  · intro x hx
    have hx2 : x ∈ idx.vecs.enum.map (fun p => ((p.1 : Int), sqDist q p.2)) :=
      hperm.mem_iff.mp hx
    rcases List.mem_map.mp hx2 with ⟨p, hp, hxp⟩
    have hlt : p.1 ∈ idx.vecs.enum.map Prod.fst := List.mem_map_of_mem _ hp
    rw [List.enum_map_fst] at hlt
    exact ⟨p.1, List.mem_range.mp hlt, by rw [← hxp]⟩

/-- C1 (amended): for a persisted index of n ≥ 1 slots and a query of the
index's dimensionality, `search` with k > n does not return all n slots: faiss
pads its result to k rows with sentinel id -1, and the document-mapping lookup
of -1 raises a KeyError. -/
theorem c1_amended (fs : FS) (st : FAISSManager) (t : String) (d n k : Nat)
    (vecs : List Vec) (m : List (Nat × Document)) (q : Vec)
    (hip : fsGet fs (local_index_path t) = some (.indexData d vecs))
    (hmp : fsGet fs (local_mapping_path t) = some (.mappingData m))
    (hn : vecs.length = n) (hm : m.map Prod.fst = List.range n)
    (hq : q.length = d) (h1 : 1 ≤ n) (hk : n < k) :
    (search fs st t q k).2 = Except.error (Err.keyError (-1)) := by
  have hload := load_index_both fs st t d vecs m hip hmp
  obtain ⟨xs, hxs, hmem⟩ := searchIds_overshoot ⟨d, vecs⟩ q k (by dsimp only; omega)
  have hall : ∀ x ∈ xs, (dictGet m x.1).isSome = true := by
    intro x hx
    rcases hmem x hx with ⟨j, hj, hx1⟩
    rw [hx1]
    refine dictGet_found m n j hm ?_
    dsimp only at hj
    omega
  have hsearch : (search fs st t q k).2
      = lookupAll m (FlatIndex.searchIds ⟨d, vecs⟩ q k) := by
    unfold search
    rw [hload]
    dsimp only
    rw [if_pos hq, if_neg (by omega : ¬ k = 0)]
    rfl
  rw [hsearch, hxs]
  exact lookupAll_pad_error m floatMax _ xs hall

theorem c1_counterexample :
    (search [(local_index_path "NVDA", FileData.indexData 1 [[0]]),
             (local_mapping_path "NVDA", FileData.mappingData [(0, "doc")])]
        ⟨none, []⟩ "NVDA" [0] 2).2 = Except.error (Err.keyError (-1)) := rfl

theorem c1_witness :
    (search [(local_index_path "NVDA", FileData.indexData 1 [[0]]),
             (local_mapping_path "NVDA", FileData.mappingData [(0, "docA")])]
        ⟨none, []⟩ "NVDA" [0] 3).2 = Except.error (Err.keyError (-1)) :=
  c1_amended
    [(local_index_path "NVDA", FileData.indexData 1 [[0]]),
     (local_mapping_path "NVDA", FileData.mappingData [(0, "docA")])]
    ⟨none, []⟩ "NVDA" 1 1 3 [[0]] [(0, "docA")] [0]
    (by decide) (by decide) (by decide) (by decide) (by decide) (by decide) (by decide)

/-- C9 (amended): `retrieve` returns (without raising) the could-not-embed
sentinel when the query embedding fails, the non-empty no-context sentinel when
the underlying search returns zero results, and otherwise the returned
documents (distances discarded) joined nearest-first with the fixed separator;
but when the underlying search raises (e.g. k exceeding the stored slot count),
the exception propagates instead of a string being returned. -/
theorem c9_amended (fs : FS) (st : FAISSManager) (embed : String → Option Vec)
    (t : String) (qs : String) (k : Nat) :
    (embed qs = none →
      retrieve fs st embed t qs k
        = (st, Except.ok "Could not generate embedding for the query.")) ∧
    (∀ q st1, embed qs = some q → search fs st t q k = (st1, Except.ok []) →
      retrieve fs st embed t qs k
        = (st1, Except.ok ("No context found for ticker: " ++ t ++
            ". Index may be empty or not yet scraped."))) ∧
    ("No context found for ticker: " ++ t ++
      ". Index may be empty or not yet scraped.") ≠ "" ∧
    (∀ q st1 rs, embed qs = some q → search fs st t q k = (st1, Except.ok rs) →
      rs ≠ [] →
      retrieve fs st embed t qs k
        = (st1, Except.ok (String.intercalate "\n---\n" (rs.map (fun r => r.1))))) ∧
    (∀ q st1 e, embed qs = some q → search fs st t q k = (st1, Except.error e) →
      retrieve fs st embed t qs k = (st1, Except.error e)) := by
  refine ⟨fun h => ?_, fun q st1 hq hs => ?_, ?_,
    fun q st1 rs hq hs hrs => ?_, fun q st1 e hq hs => ?_⟩
  · unfold retrieve
    rw [h]
  · unfold retrieve
    rw [hq]
    dsimp only
    rw [hs]
    rfl
  · intro h
    have hlen := congrArg String.length h
    rw [String.length_append, String.length_append] at hlen
    have h1 : 0 < ("No context found for ticker: " : String).length := by decide
    have h0 : ("" : String).length = 0 := rfl
    rw [h0] at hlen
    omega
  · unfold retrieve
    rw [hq]
    dsimp only
    rw [hs]
    dsimp only
    have hre : rs.isEmpty = false := by
      cases rs with
      | nil => exact absurd rfl hrs
      | cons a l => rfl
    rw [hre]
    rfl
  · unfold retrieve
    rw [hq]
    dsimp only
    rw [hs]

theorem c9_counterexample :
    (retrieve [(local_index_path "NVDA", FileData.indexData 1 [[0]]),
               (local_mapping_path "NVDA", FileData.mappingData [(0, "docA")])]
        ⟨none, []⟩ (fun _ => some [0]) "NVDA" "query" 5).2
      = Except.error (Err.keyError (-1)) := rfl

theorem c9_witness :
    retrieve [] ⟨none, []⟩ (fun _ => none) "NVDA" "q" 5
      = (⟨none, []⟩, Except.ok "Could not generate embedding for the query.") ∧
    retrieve [] ⟨none, []⟩ (fun _ => some [0]) "NVDA" "q" 5
      = ({ index := none, doc_mapping := [] },
         Except.ok ("No context found for ticker: " ++ "NVDA" ++
           ". Index may be empty or not yet scraped.")) :=
  ⟨(c9_amended [] ⟨none, []⟩ (fun _ => none) "NVDA" "q" 5).1 rfl,
   (c9_amended [] ⟨none, []⟩ (fun _ => some [0]) "NVDA" "q" 5).2.1 [0]
     ⟨none, []⟩ rfl rfl⟩
